import Mathlib

/-!
Verification development for the hybrid evidence-retrieval and
context-assembly engine (`backend/app/retrieval/`): a shallow embedding of
`text_chunker.py`, `ranking.py`, `hybrid_retrieval.py`, `vector_indexer.py`
and `context_builder.py`, followed by theorems settling the frozen claims.

Modelling conventions:
* Python `str` values are modelled as `String`/`List Char`; all whitespace
  handling uses `Char.isWhitespace` (Python `\s` on the texts involved).
* Python floats are modelled as `ℚ` where the code only adds, multiplies,
  divides and compares (decimal literals such as 0.05 are taken at their
  decimal value; every claim proved here is robust to the float rounding of
  those literals), and as `ℝ` where the code takes real powers (`0.5 ** x`).
* Timestamps: the code parses `created_utc` with `datetime.fromisoformat`
  and only ever uses the signed day difference from "now"; a document
  carries `days_ago : Option Int`, `none` meaning a missing or unparseable
  timestamp (both fall into the code's `return`-default branches).
* External collaborators (sklearn TF-IDF core, langid, the sentence-split
  regex, embedding search, topic expansion) are oracle parameters: the
  claims settled here do not depend on their values, only on how the code
  under `retrieval/` combines them.
-/

namespace MedRetrieval

/-! ### Basic text utilities (language_detector.normalize_spaces, str.split) -/

/-- Splitting a character list into maximal runs of non-separator
characters, the common core of Python `str.split()` (separator =
whitespace) and of `re.findall` over a character class (separator =
characters outside the class). `acc` holds the current run, reversed. -/
def splitRunsAux (sep : Char → Bool) : List Char → List Char → List (List Char)
  | [], acc => if acc.isEmpty then [] else [acc.reverse]
  | c :: cs, acc =>
    if sep c then
      if acc.isEmpty then splitRunsAux sep cs []
      else acc.reverse :: splitRunsAux sep cs []
    else splitRunsAux sep cs (c :: acc)

def splitRuns (sep : Char → Bool) (l : List Char) : List (List Char) :=
  splitRunsAux sep l []

/-- Python `text.split()`: maximal runs of non-whitespace characters. -/
def splitWords (l : List Char) : List (List Char) :=
  splitRuns (fun c => c.isWhitespace) l

/-- `len(text.split())`, the word count used throughout the chunkers. -/
def numWords (l : List Char) : Nat := (splitWords l).length

/-- Python `" ".join(words)`. -/
def joinWords : List (List Char) → List Char
  | [] => []
  | [w] => w
  | w :: ws => w ++ ' ' :: joinWords ws

/-- Python `text.strip()`. -/
def stripList (l : List Char) : List Char :=
  ((l.dropWhile Char.isWhitespace).reverse.dropWhile Char.isWhitespace).reverse

/-- Helper for `normalizeSpaces`: replace each maximal whitespace run by a
single space (`re.sub(r'\s+', ' ', text)`); `prevWs` records whether the
previous character was part of a whitespace run. -/
def collapseWsAux : Bool → List Char → List Char
  | _, [] => []
  | prevWs, c :: cs =>
    if c.isWhitespace then
      if prevWs then collapseWsAux true cs else ' ' :: collapseWsAux true cs
    else c :: collapseWsAux false cs

/-- `LanguageDetector.normalize_spaces`: `re.sub(r'\s+', ' ', text).strip()`. -/
def normalizeSpaces (l : List Char) : List Char :=
  stripList (collapseWsAux false l)

/-- Python `str.lower()` on the (ASCII) texts manipulated by the engine. -/
def lowerList (l : List Char) : List Char := l.map Char.toLower

/-- Python `str.upper()` on the (ASCII) texts manipulated by the engine. -/
def upperList (l : List Char) : List Char := l.map Char.toUpper

/-- Python `needle in haystack` (substring containment): some position of
the haystack starts an occurrence of the needle. -/
def containsSub (needle haystack : List Char) : Bool :=
  (List.range (haystack.length + 1)).any (fun i => needle.isPrefixOf (haystack.drop i))

/-! ### text_chunker.py -/

/-- `ChunkConfig` from `text_chunker.py`, restricted to the fields that the
two implemented strategies (word-based and sentence-based) read.  The
`max_chars` / `overlap_chars` / `preserve_paragraphs` fields are never used
by those strategies and are omitted.  The counts are modelled as `ℕ`: they
are word counts, and the defaults are the dataclass defaults. -/
structure ChunkConfig where
  max_words : Nat := 350
  overlap_words : Nat := 40
  min_chunk_words : Nat := 50
  preserve_sentences : Bool := true
deriving DecidableEq, Repr

/-- `TextChunk` from `text_chunker.py` (the `metadata` dict, always empty at
creation, is omitted).  `start_char`/`end_char` are `Int` because the
sentence-based chunker's back-dating arithmetic can in principle go
negative in Python. -/
structure TextChunk where
  content : List Char
  start_char : Int
  end_char : Int
  word_count : Nat
  char_count : Nat
  chunk_index : Nat
deriving DecidableEq, Repr

/-- Scan every suffix position of the haystack left to right, remembering
the last position where the needle is a prefix of the remaining suffix. -/
def rfindScan (needle : List Char) : List Char → Nat → Option Nat → Option Nat
  | [], pos, best => if needle.isPrefixOf [] then some pos else best
  | c :: cs, pos, best =>
    rfindScan needle cs (pos + 1)
      (if needle.isPrefixOf (c :: cs) then some pos else best)

/-- Python `haystack.rfind(needle)`: index of the last occurrence, `-1` if
absent (an empty needle matches at `len(haystack)`). -/
def pyRfind (needle haystack : List Char) : Int :=
  match rfindScan needle haystack 0 none with
  | none => -1
  | some i => (i : Int)

def sentenceEndings : List (List Char) :=
  [['.'], ['!'], ['?'], ['.', '\n'], ['!', '\n'], ['?', '\n']]

/-- One step of the `for ending in sentence_endings` loop in
`WordBasedChunker._adjust_for_sentence_boundary`.  The Python comparison
`pos > len(content) * 0.7` multiplies by the float literal 0.7; it is
modelled as the exact rational comparison `10 * pos > 7 * len`.  No claim
proved below depends on the boundary of this comparison (the chunk-size
invariants hold whichever branch is taken, and the concrete scenario input
contains no sentence-ending punctuation at all). -/
def adjustStep (content : List Char) (best : Int) (ending : List Char) : Int :=
  let pos := pyRfind ending content
  if best < pos ∧ (content.length : Int) * 7 < pos * 10 then pos + ending.length
  else best

/-- `WordBasedChunker._adjust_for_sentence_boundary`.  The `next_content`
argument is accepted and ignored, exactly as in the source. -/
def adjustForSentenceBoundary (content _next_content : List Char) : List Char :=
  let best := sentenceEndings.foldl (adjustStep content) (-1)
  if 0 < best then content.take best.toNat else content

/-- The `while i < len(words)` loop of `WordBasedChunker.chunk`, indexed by
explicit fuel (the loop variable `i` advances by the precomputed `step`
each iteration; totality for every configuration is claim C10 and is
proved below as `chunkLoopF_isSome`).  `idx` is `chunk_index`. -/
def chunkLoopF (ccfg : ChunkConfig) (step : Nat) (words : List (List Char)) :
    Nat → Nat → Nat → Option (List TextChunk)
  | 0, _, _ => none
  | fuel + 1, i, idx =>
    if i < words.length then
      let chunk_words := (words.drop i).take ccfg.max_words
      if chunk_words.isEmpty then some []
      else
        let raw := joinWords chunk_words
        let content :=
          if ccfg.preserve_sentences ∧ i + ccfg.max_words < words.length then
            adjustForSentenceBoundary raw
              (joinWords ((words.drop (min (i + ccfg.max_words) words.length)).take 10))
          else raw
        let start_char : Int :=
          ((joinWords (words.take i)).length : Int) + (if 0 < i then 1 else 0)
        (chunkLoopF ccfg step words fuel (i + step)
            (if ccfg.min_chunk_words ≤ numWords content then idx + 1 else idx)).map
          (fun rest =>
            if ccfg.min_chunk_words ≤ numWords content then
              ⟨stripList content, start_char, start_char + content.length,
               chunk_words.length, content.length, idx⟩ :: rest
            else rest)
    else some []

/-- `WordBasedChunker.chunk`: normalization followed by splitting is
`splitWords` (`normalize_spaces(text).split()` yields exactly the
whitespace-delimited tokens of `text`); the effective overlap is capped at
`max_words // 2` and the stride is `max(1, max_words - overlap)`.  Fuel
`words.length + 1` always suffices (theorem `chunkLoopF_isSome`). -/
def wordChunkOpt (ccfg : ChunkConfig) (text : List Char) : Option (List TextChunk) :=
  let words := splitWords text
  let ov := min ccfg.overlap_words (ccfg.max_words / 2)
  let step := max 1 (ccfg.max_words - ov)
  chunkLoopF ccfg step words (words.length + 1) 0 0

def wordChunk (ccfg : ChunkConfig) (text : List Char) : List TextChunk :=
  (wordChunkOpt ccfg text).getD []

/-- `SentenceBasedChunker._get_overlap_sentences`'s backward walk:
iterates the reversed sentence list, prepending sentences while the
accumulated word count stays within `overlap_words`, stopping at the first
sentence that would overflow. -/
def overlapGo (ow : Nat) : List (List Char) → Nat → List (List Char) → List (List Char)
  | [], _, acc => acc
  | s :: rest, wc, acc =>
    let sw := numWords s
    if wc + sw ≤ ow then overlapGo ow rest (wc + sw) (s :: acc) else acc

/-- `SentenceBasedChunker._get_overlap_sentences` (note `overlap_words <= 0`
is `= 0` over `ℕ`). -/
def overlapSent (sentences : List (List Char)) (ow : Nat) : List (List Char) :=
  if sentences.isEmpty ∨ ow = 0 then [] else overlapGo ow sentences.reverse 0 []

/-- The `for sentence in sentences` loop of `SentenceBasedChunker.chunk`,
including the final dangling-chunk emission.  State: `current` is
`current_chunk`, `cwc` is `current_word_count`, `idx` is `chunk_index`,
`sc` is `start_char`. -/
def sentLoop (ccfg : ChunkConfig) :
    List (List Char) → List (List Char) → Nat → Nat → Int → List TextChunk
  | [], current, cwc, idx, sc =>
    if ¬ current.isEmpty ∧ ccfg.min_chunk_words ≤ cwc then
      let content := joinWords current
      [⟨stripList content, sc, sc + content.length, cwc, content.length, idx⟩]
    else []
  | s :: rest, current, cwc, idx, sc =>
    let sw := numWords s
    if ccfg.max_words < cwc + sw ∧ ¬ current.isEmpty ∧ ccfg.min_chunk_words ≤ cwc then
      let content := joinWords current
      let endc : Int := sc + content.length
      let ov := overlapSent current ccfg.overlap_words
      let current' := ov ++ [s]
      let cwc' := (current'.map numWords).sum
      let sc' := endc - (((ov.map (fun t => t.length + 1)).sum : Nat) : Int)
      ⟨stripList content, sc, endc, cwc, content.length, idx⟩ ::
        sentLoop ccfg rest current' cwc' (idx + 1) sc'
    else sentLoop ccfg rest (current ++ [s]) (cwc + sw) idx sc

/-- `SentenceBasedChunker.chunk`, parameterized over the sentence list that
`_split_into_sentences` (a locale-dependent regex, an external concern)
produced from the text: the chunk loop itself is embedded exactly. -/
def sentChunk (ccfg : ChunkConfig) (sentences : List (List Char)) : List TextChunk :=
  sentLoop ccfg sentences [] 0 0 0

/-! ### The document record -/

/-- A retrieval candidate (the `dict` documents flowing through
`ranking.py` / `hybrid_retrieval.py` / `context_builder.py`), with the
fields those modules read.  `platform_meta` is read only through its
`feed` and `category` keys, which are inlined.  `created_utc` is the raw
ISO string (copied verbatim into chunk metadata); `days_ago` is its parsed
view — the signed day difference from "now" that the code derives via
`datetime.fromisoformat` — with `none` standing for a missing or
unparseable timestamp (every consumer catches the parse failure and takes
its documented default in exactly that case). -/
structure Doc where
  title : String := ""
  text : String := ""
  url : String := ""
  lang : String := ""
  created_utc : String := ""
  days_ago : Option Int := none
  source : String := ""
  feed : String := ""
  category : String := ""
deriving DecidableEq, Repr

/-! ### ranking.py -/

/-- `RankingConfig` (the TF-IDF vectorizer parameters live inside the
sklearn oracle and are omitted). -/
structure RankingConfig where
  lang_whitelist : List String := ["it", "en"]
  since_days : Nat := 730
  min_chars : Nat := 300
deriving DecidableEq, Repr

/-- `TFIDFRanker._extract_document_text` / `JaccardRanker._extract_document_text`:
`f"{title} {text}".strip()`. -/
def extractDocText (d : Doc) : List Char :=
  stripList ((d.title ++ " " ++ d.text).data)

/-- The character class of `JaccardRanker._tokenize`'s regex
`[A-Za-zÀ-ÖØ-öø-ÿ0-9#]+`. -/
def jacAllowed (c : Char) : Bool :=
  ('A' ≤ c ∧ c ≤ 'Z') ∨ ('a' ≤ c ∧ c ≤ 'z') ∨ ('0' ≤ c ∧ c ≤ '9') ∨ c = '#' ∨
  ('À' ≤ c ∧ c ≤ 'Ö') ∨ ('Ø' ≤ c ∧ c ≤ 'ö') ∨ ('ø' ≤ c ∧ c ≤ 'ÿ')

/-- `JaccardRanker._tokenize`: lowercase, take the maximal runs matching
the regex class, return them as a set. -/
def jacTokenize (l : List Char) : Finset (List Char) :=
  (splitRuns (fun c => ! jacAllowed c) (lowerList l)).toFinset

/-- The per-document body of `JaccardRanker.rank`:
`|intersection| / |union|`, `0.0` when the union is empty. -/
def jaccardSim (query : List Char) (d : Doc) : ℚ :=
  let qt := jacTokenize query
  let dt := jacTokenize (extractDocText d)
  let inter := (qt ∩ dt).card
  let uni := (qt ∪ dt).card
  if 0 < uni then (inter : ℚ) / (uni : ℚ) else 0

/-- `JaccardRanker.rank`: one `(document, similarity)` pair per document,
in order (the `if not documents: return []` early exit coincides with the
map over the empty list). -/
def jaccardRank (query : List Char) (docs : List Doc) : List (Doc × ℚ) :=
  docs.map (fun d => (d, jaccardSim query d))

/-- `TFIDFRanker.rank`.  The sklearn vectorizer and cosine similarity are
an external library, modelled as an oracle `core` returning the similarity
row for the documents, or `none` when that code raises (the `except`
branch); on `none` the method returns the Jaccard ranking of the same
inputs.  Like Python `zip`, a score list of the wrong length truncates. -/
def tfidfRank (core : List Char → List Doc → Option (List ℚ))
    (query : List Char) (docs : List Doc) : List (Doc × ℚ) :=
  if docs.isEmpty then []
  else
    match core query docs with
    | some sims => docs.zip sims
    | none => jaccardRank query docs

/-- `DocumentFilter._get_medical_must_terms`'s topic→stems table. -/
def medicalMapping : List (String × List String) :=
  [("vaccino", ["vaccin", "immuniz"]),
   ("covid", ["covid", "coronavirus", "sars"]),
   ("influenza", ["influenza", "flu"]),
   ("diabete", ["diabet"]),
   ("tumore", ["tumor", "cancer", "oncolog"]),
   ("antibiotico", ["antibiotic", "antimicrob"])]

/-- `DocumentFilter._get_medical_must_terms` (the Python set union over
matching keys, as a list of the same elements). -/
def getMedicalMustTerms (topicLower : String) : List String :=
  (medicalMapping.filter (fun p => containsSub p.1.data topicLower.data)).flatMap Prod.snd

/-- `DocumentFilter.make_must_terms_for_topic`. -/
def makeMustTerms (topic post_text : String) : List String :=
  let postLower := post_text.toLower
  let italianIndicators := ["italia", "italy", "italiano", "regioni italiane"]
  let geo := if italianIndicators.any (fun i => containsSub i.data postLower.data)
             then ["italia", "italy"] else []
  geo ++ getMedicalMustTerms topic.toLower

/-- `DocumentFilter._check_language_filter`: empty tag passes; otherwise
the 2-letter code before any `-` must be whitelisted. -/
def checkLanguageFilter (d : Doc) (whitelist : List String) : Bool :=
  if whitelist.isEmpty then true
  else if d.lang = "" then true
  else whitelist.contains (((d.lang.splitOn "-").headD "").toLower)

/-- `DocumentFilter._check_date_filter`: `created_date >= cutoff` is "at
most `since_days` days old"; missing or unparseable timestamps pass. -/
def checkDateFilter (d : Doc) (since_days : Nat) : Bool :=
  match d.days_ago with
  | none => true
  | some days => days ≤ (since_days : Int)

/-- `DocumentFilter._check_length_filter`:
`len(normalize_spaces(f"{title} {text}")) >= min_chars`. -/
def checkLengthFilter (d : Doc) (min_chars : Nat) : Bool :=
  min_chars ≤ (normalizeSpaces ((d.title ++ " " ++ d.text).data)).length

/-- Shared body of `_check_must_terms` / `_check_expanded_keys` and of the
fallback's must-term scan: some term occurs (lowercased, substring) in
`f"{title} {text}".lower()`. -/
def docContainsAnyTerm (d : Doc) (terms : List String) : Bool :=
  let combined := lowerList ((d.title ++ " " ++ d.text).data)
  terms.any (fun t => containsSub (lowerList t.data) combined)

/-- `DocumentFilter._check_must_terms` (empty set passes). -/
def checkMustTerms (d : Doc) (must_terms : List String) : Bool :=
  if must_terms.isEmpty then true else docContainsAnyTerm d must_terms

/-- `DocumentFilter._check_expanded_keys` (empty set passes). -/
def checkExpandedKeys (d : Doc) (keys : List String) : Bool :=
  if keys.isEmpty then true else docContainsAnyTerm d keys

/-- The conjunction of the five gates applied per document inside
`DocumentFilter.filter_by_topic` (the `if must_terms and not check`
guard is `isEmpty ∨ check`, identical to `checkMustTerms`). -/
def topicGate (cfg : RankingConfig) (mt keys : List String) (d : Doc) : Bool :=
  checkLanguageFilter d cfg.lang_whitelist &&
  checkDateFilter d cfg.since_days &&
  checkLengthFilter d cfg.min_chars &&
  checkMustTerms d mt &&
  checkExpandedKeys d keys

/-- `DocumentFilter.filter_by_topic`.  A falsy (`None` or empty)
`must_terms` argument is regenerated from the topic and post text, as in
`must_terms or self.make_must_terms_for_topic(...)`; the Python sets are
modelled as lists (the gates only test membership). -/
def filterByTopic (cfg : RankingConfig) (documents : List Doc)
    (topic post_text _post_lang : String)
    (expanded_keys must_terms : List String) : List Doc :=
  if documents.isEmpty then []
  else
    let mt := if must_terms.isEmpty then makeMustTerms topic post_text else must_terms
    documents.filter (topicGate cfg mt expanded_keys)

/-! ### vector_indexer.py: the institutional-source predicate -/

/-- `INSTITUTIONAL_SOURCES` from `vector_indexer.py`. -/
def institutionalSources : List String :=
  ["WHO", "CDC", "ISS", "MINISTERO", "AIFA", "EMA", "FDA",
   "ECDC", "WORLD HEALTH", "CENTERS FOR DISEASE", "ISTITUTO SUPERIORE",
   "MINISTRY OF HEALTH", "HEALTH MINISTRY", "PUBMED", "NEJM", "LANCET"]

/-- `VectorIndexer._get_source_name`: `(feed or source or "").strip()`. -/
def getSourceName (d : Doc) : List Char :=
  stripList (if d.feed ≠ "" then d.feed.data
             else if d.source ≠ "" then d.source.data else [])

/-- `VectorIndexer._is_institutional_source`: case-insensitive substring
match of any allow-list entry in the feed/source name.  The Python
function returns a `bool`. -/
def isInstitutionalSource (d : Doc) : Bool :=
  institutionalSources.any (fun inst => containsSub inst.data (upperList (getSourceName d)))

/-! ### hybrid_retrieval.py -/

/-- `HybridRetrievalConfig` (decimal weight literals at their decimal
value). -/
structure HybridConfig where
  candidate_k : Nat := 60
  vector_weight : ℚ := 3/5
  tfidf_weight : ℚ := 2/5
  enable_country_boost : Bool := true
  enable_year_boost : Bool := true
  enable_category_boost : Bool := true
  enable_keyword_boost : Bool := true
  enable_institutional_boost : Bool := true
  enable_time_decay : Bool := true
  time_decay_half_life : Nat := 540
  top_docs : Nat := 5
  max_chunks : Nat := 6
  words_per_chunk : Nat := 350
deriving Repr

/-- The analysis dict produced by `HybridRetriever._analyze_post`
(`post_terms` feeds only the topic-expansion oracle and is folded into
it). -/
structure Analysis where
  post_lang : String := ""
  country_signal : Option String := none
  year_signal : Option Int := none
  expanded_keys : List String := []
  must_terms : List String := []
  topic : String := ""
deriving DecidableEq, Repr

/-- `BoostCalculator.country_boost` (1.15 / 0.92 as exact decimals). -/
def countryBoost (d : Doc) (country_signal : Option String) : ℚ :=
  if country_signal ≠ some "italy" then 1
  else
    let combined := lowerList ((d.title ++ " " ++ d.text).data)
    let hasItalianContent :=
      containsSub ("italia".data) combined || containsSub ("italy".data) combined
    let hasItalianLang := d.lang.startsWith "it"
    if hasItalianContent || hasItalianLang then 23/20 else 23/25

/-- `BoostCalculator.year_boost` (`if not claim_year` treats the year `0`
like `None`; 1.12 / 0.98 / 0.93 as exact decimals). -/
def yearBoost (d : Doc) (claim_year : Option Int) : ℚ :=
  match claim_year with
  | none => 1
  | some y =>
    if y = 0 then 1
    else
      let combined := lowerList ((d.title ++ " " ++ d.text ++ " " ++ d.url).data)
      if containsSub (toString y).data combined then 28/25
      else if d.category = "surveillance" then 49/50
      else 93/100

/-- `BoostCalculator.category_boost`. -/
def categoryBoost (d : Doc) : ℚ :=
  if d.category = "surveillance" then 11/10 else 1

/-- `BoostCalculator.keyword_boost`: `min(1.0 + 0.05 * hits, 1.25)`, `1.0`
for an empty keyword set (the Python set is modelled as a list; the hit
count only feeds the capped multiplier). -/
def keywordBoost (d : Doc) (keywords : List String) : ℚ :=
  if keywords.isEmpty then 1
  else
    let combined := lowerList ((d.title ++ " " ++ d.text).data)
    let hits := (keywords.filter (fun k => containsSub (lowerList k.data) combined)).length
    min (1 + (hits : ℚ) / 20) (5/4)

/-- `BoostCalculator.time_decay`, real-valued: the mathematical value of
`0.5 ** (days_ago / max(1, half_life_days))` (real power), `1.0` when the
timestamp is missing or unparseable. -/
noncomputable def timeDecayR (d : Doc) (half_life_days : Nat) : ℝ :=
  match d.days_ago with
  | none => 1
  | some days => (1/2 : ℝ) ^ ((days : ℝ) / ((max 1 half_life_days : Nat) : ℝ))

/-- `BoostCalculator.time_decay` as used inside the scoring pipeline: the
float power is an oracle `powHalf days halfLife` (its exact value is
irrational in general and no pipeline claim depends on it); the
missing-timestamp branch returns exactly `1.0`. -/
def timeDecayQ (powHalf : Int → Nat → ℚ) (d : Doc) (half_life_days : Nat) : ℚ :=
  match d.days_ago with
  | none => 1
  | some days => powHalf days (max 1 half_life_days)

/-- `HybridRetriever._calculate_boost_factors`: the dict of enabled boost
factors, as the list of its values (the hybrid score only folds a product
over them).  The institutional entry is the **boolean** returned by
`VectorIndexer._is_institutional_source`, which Python multiplies into the
float score — `True` behaves as `1.0` and `False` as `0.0`. -/
def boostFactors (cfg : HybridConfig) (powHalf : Int → Nat → ℚ)
    (d : Doc) (a : Analysis) : List ℚ :=
  (if cfg.enable_country_boost then [countryBoost d a.country_signal] else []) ++
  (if cfg.enable_year_boost then [yearBoost d a.year_signal] else []) ++
  (if cfg.enable_category_boost then [categoryBoost d] else []) ++
  (if cfg.enable_keyword_boost then [keywordBoost d a.must_terms] else []) ++
  (if cfg.enable_institutional_boost then
    [if isInstitutionalSource d then 1 else 0] else []) ++
  (if cfg.enable_time_decay then [timeDecayQ powHalf d cfg.time_decay_half_life] else [])

/-- `HybridRetriever._calculate_hybrid_score`: weighted base score times
the product of all boost factors. -/
def calcHybridScore (vector_weight tfidf_weight vector_sim tfidf_sim : ℚ)
    (factors : List ℚ) : ℚ :=
  factors.foldl (· * ·) (vector_weight * vector_sim + tfidf_weight * tfidf_sim)

/-- `HybridRetriever._apply_fallback_filtering`: documents matching at
least one must-term, truncated to `max(top_docs * 3, 10)`; if there are
none (or there are no must-terms), the first `max(top_docs * 3, 10)`
documents of the raw vector-search ranking. -/
def applyFallbackFiltering (cfg : HybridConfig) (candidates : List (Doc × ℚ))
    (a : Analysis) : List Doc :=
  let n := max (cfg.top_docs * 3) 10
  if a.must_terms.isEmpty then (candidates.map Prod.fst).take n
  else
    let matched := (candidates.map Prod.fst).filter (fun d => docContainsAnyTerm d a.must_terms)
    if matched.isEmpty then (candidates.map Prod.fst).take n
    else matched.take n

/-- `HybridRetriever._filter_candidates`: apply `filter_by_topic` (with
`post_text=""`), fall back when it empties, and reattach each surviving
document's vector score (Python keys the score dict by object identity;
documents are modelled by value, so the lookup finds the first
value-equal candidate, which is the same association for the distinct
documents the pipeline handles). -/
def filterCandidates (cfg : HybridConfig) (rcfg : RankingConfig)
    (a : Analysis) (candidates : List (Doc × ℚ)) : List (Doc × ℚ) :=
  let docs := candidates.map Prod.fst
  let filtered := filterByTopic rcfg docs a.topic "" a.post_lang a.expanded_keys a.must_terms
  let finalDocs := if filtered.isEmpty then applyFallbackFiltering cfg candidates a
                   else filtered
  finalDocs.map (fun d =>
    (d, ((candidates.find? (fun p => p.1 = d)).map Prod.snd).getD 0))

/-- `HybridRetriever._hybrid_rerank`: per candidate, combine the vector
score, the TF-IDF score for that document, and all enabled boost factors;
sort by descending hybrid score (Python's stable `sort(reverse=True)`);
keep `top_docs` documents. -/
def hybridRerank (core : List Char → List Doc → Option (List ℚ))
    (powHalf : Int → Nat → ℚ) (cfg : HybridConfig)
    (candidates : List (Doc × ℚ)) (post_text : List Char) (a : Analysis)
    (top_docs : Nat) : List Doc :=
  if candidates.isEmpty then []
  else
    let docs := candidates.map Prod.fst
    let tfidfRanked := tfidfRank core post_text docs
    let scored := candidates.map (fun p =>
      let tf := ((tfidfRanked.find? (fun q => q.1 = p.1)).map Prod.snd).getD 0
      (p.1, calcHybridScore cfg.vector_weight cfg.tfidf_weight p.2 tf
              (boostFactors cfg powHalf p.1 a)))
    ((scored.mergeSort (fun x y => decide (y.2 ≤ x.2))).take top_docs).map Prod.fst

/-! ### context_builder.py -/

/-- `ContextConfig` (the chunk-strategy field is fixed to sentence-based by
the dataclass default; decimal literals at their decimal value). -/
structure ContextConfig where
  max_chunks : Nat := 6
  words_per_chunk : Nat := 350
  chunk_overlap : Nat := 40
  min_chunk_words : Nat := 50
  max_chunk_words : Nat := 500
  ensure_diversity : Bool := true
  max_chunks_per_source : Nat := 2
  prefer_recent : Bool := true
  recent_days_threshold : Nat := 30
  language_filter : Option (List String) := none
  include_source_metadata : Bool := true
  include_chunk_metadata : Bool := true
deriving Repr

/-- The per-chunk dict assembled by `RAGContextBuilder._chunk_documents`
(`source_doc` keeps the originating document's cited fields; the
full document value is stored here).  `final_score` is written later by
`_sort_chunks_by_relevance`, starting at the dict-absent placeholder 0. -/
structure ChunkData where
  content : List Char
  word_count : Nat
  char_count : Nat
  chunk_id : String
  src : Doc
  quality : ℚ
  recency : ℚ
  final_score : ℚ := 0
deriving DecidableEq, Repr

/-- The medical-term list of `_calculate_initial_quality_score`. -/
def medicalTerms : List String :=
  ["salute", "medico", "medicina", "farmaco", "terapia", "diagnosi",
   "sintomo", "malattia", "virus", "vaccino", "cura", "trattamento"]

/-- The reliable-source markers of `_calculate_initial_quality_score`. -/
def reliableMarkers : List String :=
  ["who", "cdc", "iss", "ministero", "ospedale"]

/-- `RAGContextBuilder._calculate_initial_quality_score`: base 0.5, up to
+0.2 for length proximity to `words_per_chunk`, up to +0.1 for
medical-term density, +0.2 flat for a reliable source, capped at 1.0.
(If `words_per_chunk` were 0 Python would raise on the division; over `ℚ`
the ratio is 0 and the bounds below hold a fortiori.) -/
def initialQualityScore (ccfg : ContextConfig) (content : List Char)
    (word_count : Nat) (d : Doc) : ℚ :=
  let lengthRatio := min ((word_count : ℚ) / (ccfg.words_per_chunk : ℚ)) 1
  let contentLower := lowerList content
  let medicalMatches :=
    (medicalTerms.filter (fun t => containsSub t.data contentLower)).length
  let sourceLower := lowerList d.source.data
  let reliableBonus : ℚ :=
    if reliableMarkers.any (fun r => containsSub r.data sourceLower) then 1/5 else 0
  min (1/2 + (1/5) * lengthRatio + (1/10) * min ((medicalMatches : ℚ) / 3) 1
       + reliableBonus) 1

/-- `RAGContextBuilder._calculate_recency_score`: 0.5 for a missing or
unparseable timestamp; linear decay inside the recent window, asymptotic
beyond it. -/
def recencyScore (ccfg : ContextConfig) (d : Doc) : ℚ :=
  match d.days_ago with
  | none => 1/2
  | some days =>
    if days ≤ (ccfg.recent_days_threshold : Int) then
      1 - ((days : ℚ) / (ccfg.recent_days_threshold : ℚ)) * (1/2)
    else
      (1/2) * (1 / (1 + ((days : ℚ) - (ccfg.recent_days_threshold : ℚ)) / 365))

/-- `RAGContextBuilder._filter_documents`: minimum stripped body length
100, optional language whitelist (detected language when the tag is
empty; detection is the `detectLang` oracle), URL deduplication against
already-kept documents. -/
def filterDocumentsCB (detectLang : List Char → String) (ccfg : ContextConfig) :
    List Doc → List Doc → List Doc
  | [], acc => acc.reverse
  | d :: rest, acc =>
    if (stripList d.text.data).length < 100 then
      filterDocumentsCB detectLang ccfg rest acc
    else if (match ccfg.language_filter with
             | none => false
             | some wl =>
               ¬ wl.isEmpty ∧
               ¬ wl.contains (if d.lang ≠ "" then d.lang else detectLang d.text.data)) then
      filterDocumentsCB detectLang ccfg rest acc
    else if d.url ≠ "" ∧ acc.any (fun f => f.url = d.url) then
      filterDocumentsCB detectLang ccfg rest acc
    else
      filterDocumentsCB detectLang ccfg rest (d :: acc)

/-- `RAGContextBuilder._chunk_documents`, parameterized over the chunker
(`TextChunker.chunk_with_metadata` under the configured strategy): chunk
each document's normalized text and attach source metadata and the two
initial scores. -/
def chunkDocuments (ccfg : ContextConfig) (chunker : List Char → List TextChunk)
    (docs : List Doc) : List ChunkData :=
  (docs.enum.map (fun di =>
    if di.2.text = "" then []
    else
      (chunker (normalizeSpaces di.2.text.data)).enum.map (fun ci =>
        ({ content := ci.2.content
           word_count := ci.2.word_count
           char_count := ci.2.char_count
           chunk_id := "doc_" ++ toString di.1 ++ "_chunk_" ++ toString ci.1
           src := di.2
           quality := initialQualityScore ccfg ci.2.content ci.2.word_count di.2
           recency := recencyScore ccfg di.2 } : ChunkData)))).flatten

/-- `RAGContextBuilder._calculate_similarity`: Jaccard overlap of the
lowercased word sets of two chunk texts. -/
def chunkSimilarity (a b : List Char) : ℚ :=
  let wa := (splitWords (lowerList a)).toFinset
  let wb := (splitWords (lowerList b)).toFinset
  let uni := (wa ∪ wb).card
  if 0 < uni then ((wa ∩ wb).card : ℚ) / (uni : ℚ) else 0

/-- The loop of `RAGContextBuilder._filter_chunks_by_quality`: word-count
band, minimum quality 0.3, near-duplicate suppression against the chunks
already kept (`acc`, reversed). -/
def filterChunksAux (ccfg : ContextConfig) :
    List ChunkData → List ChunkData → List ChunkData
  | [], acc => acc.reverse
  | c :: rest, acc =>
    if ¬ (ccfg.min_chunk_words ≤ c.word_count ∧ c.word_count ≤ ccfg.max_chunk_words) then
      filterChunksAux ccfg rest acc
    else if c.quality < 3/10 then
      filterChunksAux ccfg rest acc
    else if acc.any (fun f => decide (8/10 < chunkSimilarity (lowerList c.content) (lowerList f.content))) then
      filterChunksAux ccfg rest acc
    else
      filterChunksAux ccfg rest (c :: acc)

def filterChunksByQuality (ccfg : ContextConfig) (chunks : List ChunkData) :
    List ChunkData :=
  filterChunksAux ccfg chunks []

/-- `Modelled from the spec:` the same quality filter with the
minimum-quality rejection branch removed — the comparison point for the
claim that the 0.3 threshold never fires on chunks built by
`_chunk_documents` (spec §4.7(c,d): initial quality is base 0.5 plus
non-negative bonuses, so the 0.3 gate is unreachable). -/
def filterChunksNoQualityGateAux (ccfg : ContextConfig) :
    List ChunkData → List ChunkData → List ChunkData
  | [], acc => acc.reverse
  | c :: rest, acc =>
    if ¬ (ccfg.min_chunk_words ≤ c.word_count ∧ c.word_count ≤ ccfg.max_chunk_words) then
      filterChunksNoQualityGateAux ccfg rest acc
    else if acc.any (fun f => decide (8/10 < chunkSimilarity (lowerList c.content) (lowerList f.content))) then
      filterChunksNoQualityGateAux ccfg rest acc
    else
      filterChunksNoQualityGateAux ccfg rest (c :: acc)

def filterChunksNoQualityGate (ccfg : ContextConfig) (chunks : List ChunkData) :
    List ChunkData :=
  filterChunksNoQualityGateAux ccfg chunks []

/-- The loop of `RAGContextBuilder._ensure_diversity`: iterate in
descending quality order, cap per-source acceptances, stop once twice the
final target count is reached (the break test runs after a possible
append, as in the source). -/
def diversityLoop (maxPer total2 : Nat) :
    List ChunkData → List ChunkData → List ChunkData
  | [], acc => acc.reverse
  | c :: rest, acc =>
    let acc' :=
      if (acc.filter (fun f => f.src.source = c.src.source)).length < maxPer then c :: acc
      else acc
    if total2 ≤ acc'.length then acc'.reverse else diversityLoop maxPer total2 rest acc'

def ensureDiversity (ccfg : ContextConfig) (chunks : List ChunkData) : List ChunkData :=
  diversityLoop ccfg.max_chunks_per_source (ccfg.max_chunks * 2)
    (chunks.mergeSort (fun x y => decide (y.quality ≤ x.quality))) []

/-- `RAGContextBuilder._sort_chunks_by_relevance`: write the composite
`final_score` (recency weight 0.4 when `prefer_recent`, else 0.2) and sort
descending. -/
def sortChunksByRelevance (ccfg : ContextConfig) (chunks : List ChunkData) :
    List ChunkData :=
  let weighted := chunks.map (fun c =>
    { c with final_score :=
        (3/5) * c.quality + (if ccfg.prefer_recent then 2/5 else 1/5) * c.recency })
  weighted.mergeSort (fun x y => decide (y.final_score ≤ x.final_score))

/-- The `meta` dict of a formatted context chunk. -/
structure CtxMeta where
  title : String
  url : String
  source : String
  created_utc : String
  feed : String
  lang : String
  category : String := ""
deriving DecidableEq, Repr

/-- The optional `chunk_meta` diagnostics dict. -/
structure CtxChunkMeta where
  chunk_id : String
  word_count : Nat
  quality_score : ℚ
  recency_score : ℚ
  final_score : ℚ
deriving DecidableEq, Repr

/-- A formatted context chunk (`_format_context_chunks` output).  The
`include_source_metadata` flag copies `platform_meta` into `meta`; its
`category` component is carried in `CtxMeta.category`. -/
structure CtxChunk where
  content : List Char
  meta : CtxMeta
  chunk_meta : Option CtxChunkMeta
deriving DecidableEq, Repr

/-- `RAGContextBuilder._format_context_chunks`. -/
def formatContextChunks (ccfg : ContextConfig) (chunks : List ChunkData) :
    List CtxChunk :=
  chunks.map (fun c =>
    { content := c.content
      meta := { title := c.src.title, url := c.src.url, source := c.src.source,
                created_utc := c.src.created_utc, feed := c.src.feed,
                lang := c.src.lang,
                category := if ccfg.include_source_metadata then c.src.category else "" }
      chunk_meta := if ccfg.include_chunk_metadata then
          some { chunk_id := c.chunk_id, word_count := c.word_count,
                 quality_score := c.quality, recency_score := c.recency,
                 final_score := c.final_score }
        else none })

/-- The `ChunkConfig` that `RAGContextBuilder.__init__` hands to its
`TextChunker`. -/
def builderChunkConfig (ccfg : ContextConfig) : ChunkConfig :=
  { max_words := ccfg.words_per_chunk, overlap_words := ccfg.chunk_overlap,
    min_chunk_words := ccfg.min_chunk_words, preserve_sentences := true }

/-- `TextChunker.chunk_with_metadata` under the builder's configured
sentence-based strategy: detect the language (oracle), split into
sentences (oracle regex), run the embedded sentence chunker.  (The
`except` fallback to word-based chunking cannot fire for the total
embedded chunker.) -/
def builderChunker (detectLang : List Char → String)
    (splitSentences : String → List Char → List (List Char))
    (ccfg : ContextConfig) (text : List Char) : List TextChunk :=
  if (stripList text).isEmpty then []
  else sentChunk (builderChunkConfig ccfg) (splitSentences (detectLang text) text)

/-- `RAGContextBuilder.build_context`. -/
def buildContext (detectLang : List Char → String)
    (splitSentences : String → List Char → List (List Char))
    (ccfg : ContextConfig) (evidence_docs : List Doc) : List CtxChunk :=
  if evidence_docs.isEmpty then []
  else
    let filtered := filterDocumentsCB detectLang ccfg evidence_docs []
    let chunks := chunkDocuments ccfg (builderChunker detectLang splitSentences ccfg) filtered
    let quality := filterChunksByQuality ccfg chunks
    let diverse := if ccfg.ensure_diversity then ensureDiversity ccfg quality else quality
    let sorted := sortChunksByRelevance ccfg diverse
    formatContextChunks ccfg (sorted.take ccfg.max_chunks)

/-- `build_rag_context`: `build_context` under a fresh default config with
the two overrides. -/
def buildRagContext (detectLang : List Char → String)
    (splitSentences : String → List Char → List (List Char))
    (max_chunks words_per_chunk : Nat) (evidence_docs : List Doc) : List CtxChunk :=
  buildContext detectLang splitSentences
    { max_chunks := max_chunks, words_per_chunk := words_per_chunk } evidence_docs

/-! ### The orchestrator: HybridRetriever.select_context_hybrid -/

/-- The external collaborators consumed by the orchestrator, gathered as
oracle functions: language identification (`langid`), the locale/year
signal extractor, topic expansion (MeSH/PubMed), embedding search
(`build_vector_index` + `encode_one` + `VectorStore.search`, whose
failure path returns the empty candidate list), the sklearn TF-IDF core,
the float `0.5 ** (days/half_life)` power, and the sentence-split regex. -/
structure Oracles where
  detectLang : List Char → String
  signals : String → Option String × Option Int
  expandTopic : String → String → List String
  vectorSearch : List Doc → String → Nat → List (Doc × ℚ)
  tfidfCore : List Char → List Doc → Option (List ℚ)
  powHalf : Int → Nat → ℚ
  splitSentences : String → List Char → List (List Char)

/-- `HybridRetriever._analyze_post`. -/
def analyzePost (o : Oracles) (post_text topic : String) : Analysis :=
  let lang := o.detectLang post_text.data
  let sig := o.signals post_text
  { post_lang := lang
    country_signal := sig.1
    year_signal := sig.2
    expanded_keys := o.expandTopic topic post_text
    must_terms := makeMustTerms topic post_text
    topic := topic }

/-- `HybridRetriever.select_context_hybrid`: the full pipeline — normalize
the post, return early on an empty document pool, analyze, vector-search,
filter with fallback, hybrid-rerank, and assemble the RAG context.
Per-call overrides of `top_docs`/`candidate_k`/`max_chunks` default to the
config values and are elided. -/
def selectContextHybrid (o : Oracles) (cfg : HybridConfig) (topic post_text : String)
    (rss_items : List Doc) : List CtxChunk :=
  let post := String.mk (normalizeSpaces post_text.data)
  if rss_items.isEmpty then []
  else
    let a := analyzePost o post topic
    let candidates := o.vectorSearch rss_items post cfg.candidate_k
    let filtered := filterCandidates cfg {} a candidates
    let finalDocs := hybridRerank o.tfidfCore o.powHalf cfg filtered post.data a cfg.top_docs
    buildRagContext o.detectLang o.splitSentences cfg.max_chunks cfg.words_per_chunk finalDocs

/-! ### Concrete inputs used by the claim theorems -/

/-- The scenario input: a 1,000-word text (`w0 w1 … w999`) containing no
sentence-ending punctuation. -/
def scenarioWords : List (List Char) :=
  (List.range 1000).map (fun i => ("w" ++ toString i).data)

def scenarioText : List Char := joinWords scenarioWords

/-- An institutional candidate: its feed name contains the allow-list
entry "WHO". -/
def whoDoc : Doc := { feed := "WHO News" }

/-- A non-institutional candidate. -/
def blogDoc : Doc := { source := "Generic Blog", text := "some text" }

/-- The single chunk produced in the C9 witness corpus (its quality value
is `1/2 + (1/5)·(100/350) = 39/70`). -/
def witnessChunkData : ChunkData :=
  { content := ("x").data, word_count := 100, char_count := 1,
    chunk_id := "doc_0_chunk_0", src := { text := "t" },
    quality := initialQualityScore {} ("x").data 100 { text := "t" },
    recency := recencyScore {} { text := "t" } }

/-! ### Facts about the text utilities -/

theorem splitRunsAux_nil (sep : Char → Bool) (acc : List Char) :
    splitRunsAux sep [] acc = if acc.isEmpty then [] else [acc.reverse] := rfl

theorem splitRunsAux_cons (sep : Char → Bool) (c : Char) (cs acc : List Char) :
    splitRunsAux sep (c :: cs) acc =
      if sep c then
        (if acc.isEmpty then splitRunsAux sep cs []
         else acc.reverse :: splitRunsAux sep cs [])
      else splitRunsAux sep cs (c :: acc) := rfl

theorem splitRunsAux_ne_nil (sep : Char → Bool) (l : List Char) :
    ∀ acc : List Char, ¬ acc.isEmpty → (splitRunsAux sep l acc) ≠ [] := by
  induction l with
  | nil =>
    intro acc hacc
    rw [splitRunsAux_nil, if_neg hacc]
    simp
  | cons c cs ih =>
    intro acc hacc
    rw [splitRunsAux_cons]
    by_cases hc : sep c
    · rw [if_pos hc, if_neg hacc]
      simp
    · rw [if_neg hc]
      exact ih (c :: acc) (by simp)

theorem splitRunsAux_take_le (sep : Char → Bool) (l : List Char) :
    ∀ (n : Nat) (acc : List Char),
      (splitRunsAux sep (l.take n) acc).length ≤ (splitRunsAux sep l acc).length := by
  induction l with
  | nil => intro n acc; simp
  | cons c cs ih =>
    intro n acc
    cases n with
    | zero =>
      rw [List.take_zero, splitRunsAux_nil]
      by_cases hacc : acc.isEmpty
      · rw [if_pos hacc]; simp
      · rw [if_neg hacc]
        have h1 : (splitRunsAux sep (c :: cs) acc) ≠ [] :=
          splitRunsAux_ne_nil sep (c :: cs) acc hacc
        have h2 : 0 < (splitRunsAux sep (c :: cs) acc).length :=
          List.length_pos.mpr h1
        simpa using h2
    | succ n =>
      rw [List.take_succ_cons, splitRunsAux_cons, splitRunsAux_cons]
      by_cases hc : sep c
      · rw [if_pos hc, if_pos hc]
        by_cases hacc : acc.isEmpty
        · rw [if_pos hacc, if_pos hacc]; exact ih n []
        · rw [if_neg hacc, if_neg hacc]
          simpa using ih n []
      · rw [if_neg hc, if_neg hc]
        exact ih n (c :: acc)

theorem numWords_take_le (l : List Char) (n : Nat) :
    numWords (l.take n) ≤ numWords l := by
  exact splitRunsAux_take_le _ l n []

theorem splitRunsAux_mem (sep : Char → Bool) (l : List Char) :
    ∀ acc : List Char, (∀ c ∈ acc, sep c = false) →
      ∀ w ∈ splitRunsAux sep l acc, w ≠ [] ∧ ∀ c ∈ w, sep c = false := by
  induction l with
  | nil =>
    intro acc hacc w hw
    rw [splitRunsAux_nil] at hw
    by_cases h : acc.isEmpty
    · rw [if_pos h] at hw; simp at hw
    · rw [if_neg h] at hw
      simp only [List.mem_singleton] at hw
      subst hw
      refine ⟨?_, ?_⟩
      · simp only [ne_eq, List.reverse_eq_nil_iff]
        intro hn; rw [hn] at h; simp at h
      · intro c hc
        exact hacc c (List.mem_reverse.mp hc)
  | cons c cs ih =>
    intro acc hacc w hw
    rw [splitRunsAux_cons] at hw
    by_cases hc : sep c
    · rw [if_pos hc] at hw
      by_cases h : acc.isEmpty
      · rw [if_pos h] at hw
        exact ih [] (by simp) w hw
      · rw [if_neg h] at hw
        rcases List.mem_cons.mp hw with h1 | h1
        · subst h1
          refine ⟨?_, ?_⟩
          · simp only [ne_eq, List.reverse_eq_nil_iff]
            intro hn; rw [hn] at h; simp at h
          · intro x hx
            exact hacc x (List.mem_reverse.mp hx)
        · exact ih [] (by simp) w h1
    · rw [if_neg hc] at hw
      refine ih (c :: acc) ?_ w hw
      intro x hx
      rcases List.mem_cons.mp hx with h1 | h1
      · subst h1; simpa using hc
      · exact hacc x h1

theorem splitWords_mem (l : List Char) :
    ∀ w ∈ splitWords l, w ≠ [] ∧ ∀ c ∈ w, c.isWhitespace = false := by
  intro w hw
  exact splitRunsAux_mem _ l [] (by simp) w hw

/-- Splitting a separator-free run followed by a separator emits the
accumulator joined with that run, then restarts on the tail. -/
theorem splitRunsAux_append_sep (sep : Char → Bool) (b : Char) (hb : sep b = true)
    (t : List Char) (w : List Char) (hw : ∀ c ∈ w, sep c = false) :
    ∀ acc : List Char,
      splitRunsAux sep (w ++ b :: t) acc =
        if (acc.reverse ++ w).isEmpty then splitRunsAux sep t []
        else (acc.reverse ++ w) :: splitRunsAux sep t [] := by
  induction w with
  | nil =>
    intro acc
    rw [List.nil_append, splitRunsAux_cons, if_pos hb]
    simp [List.isEmpty_iff]
  | cons c w' ih =>
    intro acc
    have hc : sep c = false := hw c (by simp)
    rw [List.cons_append, splitRunsAux_cons, if_neg (by simp [hc])]
    rw [ih (fun x hx => hw x (List.mem_cons_of_mem c hx)) (c :: acc)]
    simp [List.isEmpty_iff]

/-- Splitting a single separator-free run. -/
theorem splitRunsAux_all_free (sep : Char → Bool) (w : List Char)
    (hw : ∀ c ∈ w, sep c = false) :
    ∀ acc : List Char,
      splitRunsAux sep w acc =
        if (acc.reverse ++ w).isEmpty then [] else [acc.reverse ++ w] := by
  induction w with
  | nil =>
    intro acc
    rw [splitRunsAux_nil]
    simp [List.isEmpty_iff]
  | cons c w' ih =>
    intro acc
    have hc : sep c = false := hw c (by simp)
    rw [splitRunsAux_cons, if_neg (by simp [hc])]
    rw [ih (fun x hx => hw x (List.mem_cons_of_mem c hx)) (c :: acc)]
    simp [List.isEmpty_iff]

/-- Round trip: splitting a space-join of nonempty whitespace-free words
recovers exactly those words (`" ".join(ws).split() == ws`). -/
theorem splitWords_joinWords (ws : List (List Char))
    (h : ∀ w ∈ ws, w ≠ [] ∧ ∀ c ∈ w, c.isWhitespace = false) :
    splitWords (joinWords ws) = ws := by
  induction ws with
  | nil => rfl
  | cons w ws' ih =>
    cases ws' with
    | nil =>
      obtain ⟨hne, hfree⟩ := h w (by simp)
      show splitRunsAux _ (joinWords [w]) [] = [w]
      simp only [joinWords]
      rw [splitRunsAux_all_free _ w hfree []]
      simp [List.isEmpty_iff, hne]
    | cons v ws'' =>
      obtain ⟨hne, hfree⟩ := h w (by simp)
      show splitRunsAux _ (joinWords (w :: v :: ws'')) [] = w :: v :: ws''
      simp only [joinWords]
      rw [splitRunsAux_append_sep _ ' ' (by simp) _ w hfree []]
      have hrec := ih (by intro x hx; exact h x (List.mem_cons_of_mem w hx))
      simp only [splitWords, splitRuns] at hrec
      rw [if_neg (by simp [List.isEmpty_iff, hne])]
      simp only [List.reverse_nil, List.nil_append]
      rw [show splitRunsAux (fun c => c.isWhitespace) (joinWords (v :: ws'')) [] =
        v :: ws'' from hrec]

theorem numWords_joinWords (ws : List (List Char))
    (h : ∀ w ∈ ws, w ≠ [] ∧ ∀ c ∈ w, c.isWhitespace = false) :
    numWords (joinWords ws) = ws.length := by
  unfold numWords
  rw [show splitWords (joinWords ws) = ws from splitWords_joinWords ws h]

/-! ### Chunker lemmas -/

/-- The sentence-boundary adjustment only ever truncates, so it cannot
increase the word count. -/
theorem numWords_adjust_le (content nxt : List Char) :
    numWords (adjustForSentenceBoundary content nxt) ≤ numWords content := by
  simp only [adjustForSentenceBoundary]
  split
  · exact numWords_take_le content _
  · exact le_rfl

/-- The word-based chunk loop completes within `words.length` iterations:
the stride is at least 1, so the index strictly increases each round. -/
theorem chunkLoopF_isSome (ccfg : ChunkConfig) (step : Nat) (hstep : 1 ≤ step)
    (words : List (List Char)) :
    ∀ fuel i idx : Nat, 1 ≤ fuel → words.length < fuel + i →
      (chunkLoopF ccfg step words fuel i idx).isSome = true := by
  intro fuel
  induction fuel with
  | zero => intro i idx h1 _; exact absurd h1 (by omega)
  | succ f ih =>
    intro i idx _ hlt
    simp only [chunkLoopF]
    by_cases hi : i < words.length
    · rw [if_pos hi]
      by_cases he : ((words.drop i).take ccfg.max_words).isEmpty
      · rw [if_pos he]; rfl
      · rw [if_neg he]
        have hf : 1 ≤ f := by omega
        have hrec := ih (i + step) (if ccfg.min_chunk_words ≤ numWords
            (if ccfg.preserve_sentences ∧ i + ccfg.max_words < words.length then
              adjustForSentenceBoundary (joinWords ((words.drop i).take ccfg.max_words))
                (joinWords ((words.drop (min (i + ccfg.max_words) words.length)).take 10))
            else joinWords ((words.drop i).take ccfg.max_words))
          then idx + 1 else idx) hf (by omega)
        simpa using hrec
    · rw [if_neg hi]; rfl

/-- Per-chunk invariant of the word-based loop: every emitted chunk passed
the `min_chunk_words` validation, and its recorded word count is the
window length, bounded by `max_words`. -/
theorem chunkLoopF_invariant (ccfg : ChunkConfig) (step : Nat)
    (words : List (List Char))
    (hwords : ∀ w ∈ words, w ≠ [] ∧ ∀ ch ∈ w, ch.isWhitespace = false) :
    ∀ (fuel i idx : Nat) (res : List TextChunk),
      chunkLoopF ccfg step words fuel i idx = some res →
      ∀ c ∈ res, ccfg.min_chunk_words ≤ c.word_count ∧ c.word_count ≤ ccfg.max_words := by
  intro fuel
  induction fuel with
  | zero => intro i idx res h; simp [chunkLoopF] at h
  | succ f ih =>
    intro i idx res h
    simp only [chunkLoopF] at h
    by_cases hi : i < words.length
    · rw [if_pos hi] at h
      by_cases he : ((words.drop i).take ccfg.max_words).isEmpty
      · rw [if_pos he] at h
        cases h
        intro c hc
        simp at hc
      · rw [if_neg he] at h
        set chunk_words := (words.drop i).take ccfg.max_words with hcw
        set content :=
          (if ccfg.preserve_sentences ∧ i + ccfg.max_words < words.length then
            adjustForSentenceBoundary (joinWords chunk_words)
              (joinWords ((words.drop (min (i + ccfg.max_words) words.length)).take 10))
          else joinWords chunk_words) with hcontent
        have hmem : ∀ w ∈ chunk_words, w ≠ [] ∧ ∀ ch ∈ w, ch.isWhitespace = false := by
          intro w hw
          exact hwords w (List.mem_of_mem_drop (List.mem_of_mem_take hw))
        have hlenle : chunk_words.length ≤ ccfg.max_words := by
          rw [hcw]
          calc ((words.drop i).take ccfg.max_words).length
              = min ccfg.max_words (words.drop i).length := List.length_take _ _
            _ ≤ ccfg.max_words := min_le_left _ _
        have hwc : numWords content ≤ chunk_words.length := by
          have hjoin : numWords (joinWords chunk_words) = chunk_words.length :=
            numWords_joinWords chunk_words hmem
          rw [hcontent]
          split
          · exact le_trans (numWords_adjust_le _ _) (le_of_eq hjoin)
          · exact le_of_eq hjoin
        cases hcl : chunkLoopF ccfg step words f (i + step)
            (if ccfg.min_chunk_words ≤ numWords content then idx + 1 else idx) with
        | none => rw [hcl] at h; simp at h
        | some rest =>
          rw [hcl] at h
          simp only [Option.map_some', Option.some_inj] at h
          by_cases hv : ccfg.min_chunk_words ≤ numWords content
          · rw [if_pos hv] at h
            subst h
            intro c hc
            rcases List.mem_cons.mp hc with h1 | h1
            · subst h1
              exact ⟨le_trans hv hwc, hlenle⟩
            · exact ih (i + step) _ rest hcl c h1
          · rw [if_neg hv] at h
            subst h
            exact ih (i + step) _ rest hcl
    · rw [if_neg hi] at h
      cases h
      intro c hc
      simp at hc

/-- Per-chunk invariant of the sentence-based loop: both emission sites
are guarded by `min_chunk_words <= current_word_count`, and the recorded
word count is exactly that counter. -/
theorem sentLoop_invariant (ccfg : ChunkConfig) :
    ∀ (sentences current : List (List Char)) (cwc idx : Nat) (sc : Int),
      ∀ c ∈ sentLoop ccfg sentences current cwc idx sc,
        ccfg.min_chunk_words ≤ c.word_count := by
  intro sentences
  induction sentences with
  | nil =>
    intro current cwc idx sc c hc
    simp only [sentLoop] at hc
    split at hc
    · rename_i hcond
      simp only [List.mem_singleton] at hc
      subst hc
      exact hcond.2
    · simp at hc
  | cons s rest ih =>
    intro current cwc idx sc c hc
    simp only [sentLoop] at hc
    split at hc
    · rename_i hcond
      rcases List.mem_cons.mp hc with h1 | h1
      · subst h1
        exact hcond.2.2
      · exact ih _ _ _ _ c h1
    · exact ih _ _ _ _ c hc

/-! ### Claim C10 -/

/-- **C10**: for every input text and every configuration, including
configurations with `overlap_words ≥ max_words`, the word-based chunker
terminates: the effective overlap is capped at `max_words // 2`, the
stride is `max(1, max_words − overlap) ≥ 1`, so the word index strictly
increases each iteration and fuel `words.length + 1` always suffices. -/
theorem word_chunker_terminates (ccfg : ChunkConfig) (text : List Char) :
    (wordChunkOpt ccfg text).isSome = true := by
  unfold wordChunkOpt
  exact chunkLoopF_isSome ccfg _ (le_max_left _ _) _ _ 0 0 (by omega) (by omega)

/-! ### Claim C5 -/

/-- **C5**: every chunk produced by the word-based or the sentence-based
strategy has `word_count ≥ min_chunk_words` (sub-minimum chunks, a
dangling final chunk included, are dropped), and for the word-based
strategy additionally `word_count ≤ max_words`. -/
theorem chunk_size_invariant (ccfg : ChunkConfig) (text : List Char)
    (sentences : List (List Char)) (c : TextChunk) :
    (c ∈ wordChunk ccfg text →
       ccfg.min_chunk_words ≤ c.word_count ∧ c.word_count ≤ ccfg.max_words) ∧
    (c ∈ sentChunk ccfg sentences → ccfg.min_chunk_words ≤ c.word_count) := by
  constructor
  · intro hc
    unfold wordChunk wordChunkOpt at hc
    cases hcl : chunkLoopF ccfg
        (max 1 (ccfg.max_words - min ccfg.overlap_words (ccfg.max_words / 2)))
        (splitWords text) ((splitWords text).length + 1) 0 0 with
    | none => rw [hcl] at hc; simp at hc
    | some res =>
      rw [hcl] at hc
      simp only [Option.getD_some] at hc
      exact chunkLoopF_invariant ccfg _ (splitWords text) (splitWords_mem text)
        _ 0 0 res hcl c hc
  · intro hc
    exact sentLoop_invariant ccfg sentences [] 0 0 0 c hc

/-- Witness for C5 at a concrete input: chunking `"a b c"` with
`min_chunk_words = 1` produces the single chunk `"a b c"` with 3 words. -/
theorem chunk_size_invariant_witness :
    ({ min_chunk_words := 1 } : ChunkConfig).min_chunk_words ≤
        (⟨("a b c").data, 0, 5, 3, 5, 0⟩ : TextChunk).word_count ∧
      (⟨("a b c").data, 0, 5, 3, 5, 0⟩ : TextChunk).word_count ≤
        ({ min_chunk_words := 1 } : ChunkConfig).max_words :=
  (chunk_size_invariant { min_chunk_words := 1 } ("a b c").data []
    ⟨("a b c").data, 0, 5, 3, 5, 0⟩).1 (by decide)

/-! ### Claim C2 -/

/-- Every character of a space-join comes from one of the words or is the
joining space. -/
theorem mem_joinWords (ws : List (List Char)) (c : Char) :
    c ∈ joinWords ws → c = ' ' ∨ ∃ w ∈ ws, c ∈ w := by
  induction ws with
  | nil => intro hc; simp [joinWords] at hc
  | cons w ws' ih =>
    cases ws' with
    | nil =>
      intro hc
      right
      exact ⟨w, by simp, hc⟩
    | cons v ws'' =>
      intro hc
      simp only [joinWords] at hc
      rcases List.mem_append.mp hc with h | h
      · right; exact ⟨w, by simp, h⟩
      · rcases List.mem_cons.mp h with h | h
        · left; exact h
        · rcases ih h with h | ⟨u, hu, hcu⟩
          · left; exact h
          · right; exact ⟨u, List.mem_cons_of_mem _ hu, hcu⟩


set_option maxRecDepth 100000 in
set_option maxHeartbeats 4000000 in
/-- Each scenario word is nonempty and free of whitespace and of
sentence-ending punctuation. -/
theorem scenarioWords_wellFormed :
    scenarioWords.all
      (fun w => !w.isEmpty &&
        w.all (fun c => !c.isWhitespace && c != '.' && c != '!' && c != '?')) = true := by
  decide

theorem scenarioWords_length : scenarioWords.length = 1000 := by
  simp [scenarioWords]

/-- Propositional form of `scenarioWords_wellFormed`. -/
theorem scenarioWords_wf' :
    ∀ w ∈ scenarioWords, w ≠ [] ∧ ∀ c ∈ w,
      c.isWhitespace = false ∧ c ≠ '.' ∧ c ≠ '!' ∧ c ≠ '?' := by
  intro w hw
  have h := List.all_eq_true.mp scenarioWords_wellFormed w hw
  simp only [Bool.and_eq_true, List.all_eq_true] at h
  refine ⟨by simpa using h.1, ?_⟩
  intro c hc
  have hcp := h.2 c hc
  simp only [Bool.and_eq_true, bne_iff_ne, Bool.not_eq_true'] at hcp
  exact ⟨hcp.1.1.1, hcp.1.1.2, hcp.1.2, hcp.2⟩

set_option maxRecDepth 100000 in
set_option maxHeartbeats 16000000 in
/-- The word counts of the four chunks the word-based strategy produces on
the scenario text under the default configuration. -/
theorem scenario_word_counts :
    (wordChunk {} scenarioText).map (fun c => c.word_count) = [350, 350, 350, 70] := by
  decide

set_option maxRecDepth 100000 in
set_option maxHeartbeats 16000000 in
/-- Each consecutive pair of scenario chunks shares a 40-word overlap: the
last 40 of the 350 words of one window are the first 40 of the next. -/
theorem scenario_overlaps :
    ((wordChunk {} scenarioText).zip ((wordChunk {} scenarioText).drop 1)).all
      (fun p => (splitWords p.1.content).drop 310 == (splitWords p.2.content).take 40)
      = true := by
  decide

/-- Counterexample to **C2**: the scenario text has exactly 1,000 words
and no sentence-ending punctuation, yet the word-based strategy with
`max_words = 350`, `overlap_words = 40` (and the default
`min_chunk_words = 50`) does **not** yield 3 chunks: the stride is
350 − 40 = 310, so windows start at words 0, 310, 620 and 930, and the
dangling 70-word window passes the 50-word minimum — 4 chunks. -/
theorem chunking_scenario_counterexample :
    numWords scenarioText = 1000 ∧
    scenarioText.all (fun c => c != '.' && c != '!' && c != '?') = true ∧
    (wordChunk {} scenarioText).length ≠ 3 := by
  refine ⟨?_, ?_, ?_⟩
  · rw [show numWords scenarioText = scenarioWords.length from
      numWords_joinWords scenarioWords
        (fun w hw => ⟨(scenarioWords_wf' w hw).1,
          fun c hc => ((scenarioWords_wf' w hw).2 c hc).1⟩)]
    exact scenarioWords_length
  · refine List.all_eq_true.mpr ?_
    intro c hc
    rcases mem_joinWords scenarioWords c hc with h | ⟨w, hw, hcw⟩
    · subst h; decide
    · obtain ⟨_, h2, h3, h4⟩ := (scenarioWords_wf' w hw).2 c hcw
      simp [h2, h3, h4]
  · have hlen : (wordChunk {} scenarioText).length =
        ((wordChunk {} scenarioText).map (fun c => c.word_count)).length :=
      (List.length_map _ _).symm
    rw [scenario_word_counts] at hlen
    rw [hlen]
    decide

/-- **C2** (amended): chunking the 1,000-word punctuation-free scenario
text with the word-based strategy (`max_words = 350`,
`overlap_words = 40`) yields exactly **4** chunks with word counts
350, 350, 350, 70 — in particular every `word_count ≤ 350` — and each
consecutive pair of chunks (1→2, 2→3 and 3→4) shares a 40-word overlap
region; the claim's count of 3 is wrong because the dangling 70-word
window passes the 50-word minimum and is kept. -/
theorem chunking_scenario_amended :
    (wordChunk {} scenarioText).length = 4 ∧
    (wordChunk {} scenarioText).map (fun c => c.word_count) = [350, 350, 350, 70] ∧
    (wordChunk {} scenarioText).all (fun c => c.word_count ≤ 350) = true ∧
    ((wordChunk {} scenarioText).zip ((wordChunk {} scenarioText).drop 1)).all
      (fun p => (splitWords p.1.content).drop 310 == (splitWords p.2.content).take 40)
      = true := by
  have hlen : (wordChunk {} scenarioText).length =
      ((wordChunk {} scenarioText).map (fun c => c.word_count)).length :=
    (List.length_map _ _).symm
  rw [scenario_word_counts] at hlen
  refine ⟨by rw [hlen]; rfl, scenario_word_counts, ?_, scenario_overlaps⟩
  refine List.all_eq_true.mpr ?_
  intro c hc
  have hmem : c.word_count ∈ (wordChunk {} scenarioText).map (fun c => c.word_count) :=
    List.mem_map_of_mem _ hc
  rw [scenario_word_counts] at hmem
  simp only [List.mem_cons, List.not_mem_nil, or_false] at hmem
  rcases hmem with h | h | h | h <;> rw [h] <;> rfl

/-! ### Claim C3 -/

/-- Counterexample to **C3**: for a document whose parsed publication date
lies 540 days in the *future* (`days_ago = -540`, as
`datetime.fromisoformat` happily produces for future-dated feeds), the
time-decay factor at half-life 540 is `0.5 ** (-1) = 2 > 1`, outside the
claimed interval `(0, 1]`. -/
theorem boost_bounds_counterexample :
    (0 : Nat) < 540 ∧ 1 < timeDecayR { days_ago := some (-540) } 540 := by
  refine ⟨by decide, ?_⟩
  have h1 : timeDecayR { days_ago := some (-540) } 540 =
      (1/2 : ℝ) ^ (((-540 : Int) : ℝ) / ((max 1 540 : Nat) : ℝ)) := rfl
  have h2 : (((-540 : Int) : ℝ) / ((max 1 540 : Nat) : ℝ)) = ((-1 : ℤ) : ℝ) := by
    norm_num
  rw [h1, h2, Real.rpow_intCast]
  norm_num

/-- **C3** (amended): the keyword boost always lies in `[1, 5/4]` and is
exactly 1 for an empty keyword set; the time-decay factor is always
positive, equals 1 for a missing or unparseable timestamp, and is at most
1 whenever the parsed publication date is not in the future
(`days_ago ≥ 0`) — the original claim's upper bound fails only for
future-dated documents. -/
theorem boost_bounds_amended (d : Doc) (keywords : List String) (h : Nat)
    (hpos : 0 < h) :
    (1 ≤ keywordBoost d keywords ∧ keywordBoost d keywords ≤ 5/4) ∧
    (keywords = [] → keywordBoost d keywords = 1) ∧
    0 < timeDecayR d h ∧
    (∀ days : Int, d.days_ago = some days → 0 ≤ days → timeDecayR d h ≤ 1) ∧
    (d.days_ago = none → timeDecayR d h = 1) := by
  refine ⟨?_, ?_, ?_, ?_, ?_⟩
  · unfold keywordBoost
    by_cases hk : keywords.isEmpty
    · rw [if_pos hk]
      norm_num
    · rw [if_neg hk]
      constructor
      · refine le_min ?_ (by norm_num)
        have hnn : (0 : ℚ) ≤ ((keywords.filter (fun k =>
            containsSub (lowerList k.data)
              (lowerList ((d.title ++ " " ++ d.text).data)))).length : ℚ) / 20 := by
          positivity
        linarith
      · exact min_le_right _ _
  · intro hk
    subst hk
    rfl
  · unfold timeDecayR
    cases d.days_ago with
    | none => norm_num
    | some days => exact Real.rpow_pos_of_pos (by norm_num) _
  · intro days hd hnn
    unfold timeDecayR
    rw [hd]
    refine Real.rpow_le_one (by norm_num) (by norm_num) ?_
    refine div_nonneg (by exact_mod_cast hnn) (by positivity)
  · intro hd
    unfold timeDecayR
    rw [hd]

/-- Witness for the amended C3 at a concrete input: half-life 540,
one keyword, a document published 540 days ago. -/
theorem boost_bounds_amended_witness :
    0 < 540 ∧
    ((1 ≤ keywordBoost { days_ago := some 540 } ["x"] ∧
      keywordBoost { days_ago := some 540 } ["x"] ≤ 5/4) ∧
     (["x"] = ([] : List String) → keywordBoost { days_ago := some 540 } ["x"] = 1) ∧
     0 < timeDecayR { days_ago := some 540 } 540 ∧
     (∀ days : Int, ({ days_ago := some 540 } : Doc).days_ago = some days →
        0 ≤ days → timeDecayR { days_ago := some 540 } 540 ≤ 1) ∧
     (({ days_ago := some 540 } : Doc).days_ago = none →
        timeDecayR { days_ago := some 540 } 540 = 1)) :=
  ⟨by decide, boost_bounds_amended { days_ago := some 540 } ["x"] 540 (by decide)⟩

/-! ### Claim C1 -/


/-- **C1** (code bug): `_calculate_boost_factors` stores the *boolean*
returned by `_is_institutional_source` as the institutional factor, and
`_calculate_hybrid_score` multiplies it into the score.  For an
institutional document the factor is `True = 1.0` (a positive multiplier,
as claimed), but for every non-institutional document it is
`False = 0.0`, which **zeroes** the hybrid score instead of leaving it
unchanged: with all signals empty the factor list is `[1,1,1,1,0,1]` and
an otherwise-1 base score becomes 0 (an empty factor list leaves it at
1).  The code's own `get_retrieval_statistics` compares the same return
value against `> 1.0`, expecting multiplier semantics. -/
theorem institutional_factor_zeroes_score :
    isInstitutionalSource whoDoc = true ∧
    isInstitutionalSource blogDoc = false ∧
    (∀ powHalf : Int → Nat → ℚ,
      boostFactors {} powHalf blogDoc {} = [1, 1, 1, 1, 0, 1] ∧
      calcHybridScore (3/5) (2/5) 1 1 (boostFactors {} powHalf blogDoc {}) = 0) ∧
    calcHybridScore (3/5) (2/5) 1 1 [] = 1 := by
  have hinst : isInstitutionalSource blogDoc = false := by decide
  refine ⟨by decide, hinst, ?_, ?_⟩
  · intro powHalf
    have hbf : boostFactors {} powHalf blogDoc {} = [1, 1, 1, 1, 0, 1] := rfl
    refine ⟨hbf, ?_⟩
    rw [hbf]
    simp only [calcHybridScore, List.foldl_cons, List.foldl_nil]
    norm_num
  · simp only [calcHybridScore, List.foldl_nil]
    norm_num

/-! ### Claim C7 -/

/-- **C7**: when the TF-IDF core fails, `TFIDFRanker.rank` returns exactly
the Jaccard ranking of the same inputs; the Jaccard ranker is total and
returns one score per document in order, scoring 0 for disjoint token
sets; both rankers return `[]` for an empty document list. -/
theorem ranker_fallback_properties (core : List Char → List Doc → Option (List ℚ))
    (query : List Char) (docs : List Doc) :
    (core query docs = none → tfidfRank core query docs = jaccardRank query docs) ∧
    ((jaccardRank query docs).map Prod.fst = docs) ∧
    (∀ d : Doc, jacTokenize query ∩ jacTokenize (extractDocText d) = ∅ →
      jaccardSim query d = 0) ∧
    (docs = [] → tfidfRank core query docs = [] ∧ jaccardRank query docs = []) := by
  refine ⟨?_, ?_, ?_, ?_⟩
  · intro hc
    unfold tfidfRank
    rw [hc]
    by_cases hd : docs.isEmpty
    · rw [if_pos hd]
      rw [List.isEmpty_iff.mp hd]
      rfl
    · rw [if_neg hd]
  · unfold jaccardRank
    induction docs with
    | nil => rfl
    | cons d rest ih => simpa using ih
  · intro d hd
    simp only [jaccardSim, hd]
    split <;> simp
  · intro hd
    subst hd
    exact ⟨rfl, rfl⟩

/-- Witness for C7: a failing core on a one-document list with tokens
disjoint from the query. -/
theorem ranker_fallback_witness :
    tfidfRank (fun _ _ => none) ("alpha beta").data [{ title := "gamma", text := "delta" }] =
      jaccardRank ("alpha beta").data [{ title := "gamma", text := "delta" }] ∧
    jaccardSim ("alpha beta").data { title := "gamma", text := "delta" } = 0 :=
  ⟨(ranker_fallback_properties (fun _ _ => none) ("alpha beta").data
      [{ title := "gamma", text := "delta" }]).1 rfl,
   (ranker_fallback_properties (fun _ _ => none) ("alpha beta").data
      [{ title := "gamma", text := "delta" }]).2.2.1
      { title := "gamma", text := "delta" } (by decide)⟩

/-! ### Claim C6 -/

/-- **C6**: raising `min_chars` never admits a document that the looser
configuration rejected — the stricter filter's output is a subset of (in
fact a sublist of) the looser one's, so its size never increases. -/
theorem filter_monotone_min_chars (cfg : RankingConfig) (docs : List Doc)
    (topic post_text post_lang : String) (keys must : List String)
    (m₁ m₂ : Nat) (hm : m₁ ≤ m₂) :
    (∀ d ∈ filterByTopic { cfg with min_chars := m₂ } docs topic post_text post_lang keys must,
       d ∈ filterByTopic { cfg with min_chars := m₁ } docs topic post_text post_lang keys must) ∧
    (filterByTopic { cfg with min_chars := m₂ } docs topic post_text post_lang keys must).length ≤
      (filterByTopic { cfg with min_chars := m₁ } docs topic post_text post_lang keys must).length := by
  have hsub : (filterByTopic { cfg with min_chars := m₂ } docs topic post_text post_lang keys must).Sublist
      (filterByTopic { cfg with min_chars := m₁ } docs topic post_text post_lang keys must) := by
    unfold filterByTopic
    by_cases hd : docs.isEmpty
    · rw [if_pos hd, if_pos hd]
    · rw [if_neg hd, if_neg hd]
      refine List.monotone_filter_right _ ?_
      intro d hgate
      unfold topicGate at hgate ⊢
      simp only [Bool.and_eq_true] at hgate ⊢
      refine ⟨⟨⟨⟨hgate.1.1.1.1, hgate.1.1.1.2⟩, ?_⟩, hgate.1.2⟩, hgate.2⟩
      have hlen := hgate.1.1.2
      unfold checkLengthFilter at hlen ⊢
      simp only [decide_eq_true_eq] at hlen ⊢
      omega
  exact ⟨fun d hd => hsub.subset hd, hsub.length_le⟩

/-- Witness for C6: tightening from `min_chars = 5` to `min_chars = 10` on
a single long-enough document keeps it in both outputs. -/
theorem filter_monotone_min_chars_witness :
    (5 : Nat) ≤ 10 ∧
    ({ text := "xxxxxxxxxxxx" } : Doc) ∈
      filterByTopic { min_chars := 5 } [{ text := "xxxxxxxxxxxx" }] "t" "" "" [] ["x"] :=
  ⟨by decide,
    (filter_monotone_min_chars {} [{ text := "xxxxxxxxxxxx" }] "t" "" "" [] ["x"] 5 10
      (by decide)).1 { text := "xxxxxxxxxxxx" } (by decide)⟩

/-! ### Claim C4 -/

/-- **C4**: when the full gate set empties a non-empty candidate list, the
relaxed filtering first returns the must-term-matching candidates
truncated to `max(3·top_docs, 10)`; when that set is empty (or there are
no must-terms) it returns the first `max(3·top_docs, 10)` raw
vector-search candidates; and the filter stage never returns zero
documents when at least one candidate exists. -/
theorem filter_fallback_never_empty (cfg : HybridConfig) (rcfg : RankingConfig)
    (a : Analysis) (candidates : List (Doc × ℚ)) (hne : candidates ≠ []) :
    ((¬ a.must_terms.isEmpty = true →
       ¬ ((candidates.map Prod.fst).filter
            (fun d => docContainsAnyTerm d a.must_terms)).isEmpty = true →
       applyFallbackFiltering cfg candidates a =
         ((candidates.map Prod.fst).filter
            (fun d => docContainsAnyTerm d a.must_terms)).take (max (cfg.top_docs * 3) 10)) ∧
     (a.must_terms.isEmpty = true ∨
        ((candidates.map Prod.fst).filter
            (fun d => docContainsAnyTerm d a.must_terms)).isEmpty = true →
       applyFallbackFiltering cfg candidates a =
         (candidates.map Prod.fst).take (max (cfg.top_docs * 3) 10))) ∧
    filterCandidates cfg rcfg a candidates ≠ [] := by
  have hfb : applyFallbackFiltering cfg candidates a ≠ [] := by
    unfold applyFallbackFiltering
    have hmapne : candidates.map Prod.fst ≠ [] := by
      intro h
      exact hne (List.map_eq_nil_iff.mp h)
    have htake : (candidates.map Prod.fst).take (max (cfg.top_docs * 3) 10) ≠ [] := by
      intro h
      rcases List.take_eq_nil_iff.mp h with h | h
      · omega
      · exact hmapne h
    by_cases hmt : a.must_terms.isEmpty
    · rw [if_pos hmt]; exact htake
    · rw [if_neg hmt]
      by_cases hmatch : ((candidates.map Prod.fst).filter
          (fun d => docContainsAnyTerm d a.must_terms)).isEmpty
      · rw [if_pos hmatch]; exact htake
      · rw [if_neg hmatch]
        intro h
        rcases List.take_eq_nil_iff.mp h with h | h
        · omega
        · rw [h] at hmatch; exact hmatch rfl
  constructor
  · constructor
    · intro hmt hmatch
      unfold applyFallbackFiltering
      rw [if_neg hmt, if_neg hmatch]
    · intro hcase
      unfold applyFallbackFiltering
      rcases hcase with h | h
      · rw [if_pos h]
      · by_cases hmt : a.must_terms.isEmpty
        · rw [if_pos hmt]
        · rw [if_neg hmt, if_pos h]
  · unfold filterCandidates
    intro h
    rw [List.map_eq_nil_iff] at h
    by_cases hfil : (filterByTopic rcfg (candidates.map Prod.fst) a.topic ""
        a.post_lang a.expanded_keys a.must_terms).isEmpty
    · rw [if_pos hfil] at h
      exact hfb h
    · rw [if_neg hfil] at h
      rw [h] at hfil
      exact hfil rfl

/-- Witness for C4: one candidate with a must-term but too short for the
length gate — the full filter empties, fallback 1 recovers it. -/
theorem filter_fallback_never_empty_witness :
    ([(({ text := "il vaccino" } : Doc), (1 : ℚ))] ≠ []) ∧
    filterCandidates {} {} { must_terms := ["vaccin"] }
      [({ text := "il vaccino" }, 1)] ≠ [] :=
  ⟨by decide,
   (filter_fallback_never_empty {} {} { must_terms := ["vaccin"] }
      [({ text := "il vaccino" }, 1)] (by decide)).2⟩

/-! ### Claim C8 -/

/-- **C8**: for an empty input document pool, `select_context_hybrid`
returns the empty sequence for every topic and post text (and, being a
total function of its oracle-supplied collaborators, raises nothing). -/
theorem empty_pool_returns_empty (o : Oracles) (cfg : HybridConfig)
    (topic post_text : String) :
    selectContextHybrid o cfg topic post_text [] = [] := rfl

/-! ### Claim C9 -/

/-- The initial quality score is the base 0.5 plus non-negative bonuses,
capped at 1. -/
theorem initialQualityScore_bounds (ccfg : ContextConfig) (content : List Char)
    (word_count : Nat) (d : Doc) :
    1/2 ≤ initialQualityScore ccfg content word_count d ∧
    initialQualityScore ccfg content word_count d ≤ 1 := by
  unfold initialQualityScore
  constructor
  · refine le_min ?_ (by norm_num)
    have h1 : (0 : ℚ) ≤ min ((word_count : ℚ) / (ccfg.words_per_chunk : ℚ)) 1 :=
      le_min (by positivity) (by norm_num)
    have h2 : (0 : ℚ) ≤ min (((medicalTerms.filter
        (fun t => containsSub t.data (lowerList content))).length : ℚ) / 3) 1 :=
      le_min (by positivity) (by norm_num)
    have h3 : (0 : ℚ) ≤ (if reliableMarkers.any
        (fun r => containsSub r.data (lowerList d.source.data)) then (1/5 : ℚ) else 0) := by
      split <;> norm_num
    linarith
  · exact min_le_right _ _

/-- Every chunk built by `_chunk_documents` carries the initial quality
score of its content and source document. -/
theorem chunkDocuments_quality (ccfg : ContextConfig)
    (chunker : List Char → List TextChunk) (docs : List Doc) :
    ∀ cd ∈ chunkDocuments ccfg chunker docs,
      1/2 ≤ cd.quality ∧ cd.quality ≤ 1 := by
  intro cd hcd
  unfold chunkDocuments at hcd
  rw [List.mem_flatten] at hcd
  obtain ⟨l, hl, hcdl⟩ := hcd
  rw [List.mem_map] at hl
  obtain ⟨di, _, rfl⟩ := hl
  split at hcdl
  · simp at hcdl
  · rw [List.mem_map] at hcdl
    obtain ⟨ci, _, rfl⟩ := hcdl
    exact initialQualityScore_bounds ccfg ci.2.content ci.2.word_count di.2

/-- The quality-gated filter agrees with the gate-free filter on any chunk
list whose members all have quality at least 1/2. -/
theorem filterChunksAux_eq_noGate (ccfg : ContextConfig) :
    ∀ (chunks acc : List ChunkData),
      (∀ cd ∈ chunks, 1/2 ≤ cd.quality) →
      filterChunksAux ccfg chunks acc = filterChunksNoQualityGateAux ccfg chunks acc := by
  intro chunks
  induction chunks with
  | nil => intro acc _; rfl
  | cons c rest ih =>
    intro acc hq
    have hqc : ¬ (c.quality < 3/10) := by
      have := hq c (by simp)
      intro hlt
      linarith
    have hqrest : ∀ cd ∈ rest, 1/2 ≤ cd.quality :=
      fun cd hcd => hq cd (List.mem_cons_of_mem c hcd)
    simp only [filterChunksAux, filterChunksNoQualityGateAux]
    by_cases hband : ¬ (ccfg.min_chunk_words ≤ c.word_count ∧
        c.word_count ≤ ccfg.max_chunk_words)
    · rw [if_pos hband, if_pos hband]
      exact ih acc hqrest
    · rw [if_neg hband, if_neg hband, if_neg hqc]
      by_cases hdup : acc.any (fun f =>
          decide (8/10 < chunkSimilarity (lowerList c.content) (lowerList f.content)))
      · rw [if_pos hdup, if_pos hdup]
        exact ih acc hqrest
      · rw [if_neg hdup, if_neg hdup]
        exact ih (c :: acc) hqrest

/-- **C9**: every chunk built by the context builder starts with a quality
score in `[0.5, 1.0]`, so the 0.3 minimum-quality rejection branch of the
chunk-quality filter is unreachable: on such chunks the filter behaves
exactly like the same filter with the quality gate removed. -/
theorem quality_threshold_unreachable (ccfg : ContextConfig)
    (chunker : List Char → List TextChunk) (docs : List Doc) :
    (∀ cd ∈ chunkDocuments ccfg chunker docs,
       1/2 ≤ cd.quality ∧ cd.quality ≤ 1) ∧
    filterChunksByQuality ccfg (chunkDocuments ccfg chunker docs) =
      filterChunksNoQualityGate ccfg (chunkDocuments ccfg chunker docs) := by
  refine ⟨chunkDocuments_quality ccfg chunker docs, ?_⟩
  exact filterChunksAux_eq_noGate ccfg _ []
    (fun cd hcd => (chunkDocuments_quality ccfg chunker docs cd hcd).1)


/-- Witness for C9: a one-chunk corpus; the produced chunk's quality lies
in `[1/2, 1]`. -/
theorem quality_threshold_unreachable_witness :
    (1 : ℚ)/2 ≤ witnessChunkData.quality ∧ witnessChunkData.quality ≤ 1 :=
  (quality_threshold_unreachable {}
      (fun _ => [⟨("x").data, 0, 0, 100, 1, 0⟩]) [{ text := "t" }]).1
    witnessChunkData (List.mem_singleton.mpr rfl)

end MedRetrieval
